import Mathlib

/-
  Verification of the Tech-Daily-Digest crawler module (src/crawler.py).

  The development shallowly embeds the crawler's data model and operations:
  pure Python functions become Lean functions, the network is an explicit
  oracle argument (fetch results are inputs), exceptions become Option /
  Except results, and the external libraries (dateutil, BeautifulSoup,
  feedparser, urllib) are modelled from the specification where their
  behaviour matters, as flagged in the corresponding doc comments.
-/

set_option maxHeartbeats 1000000

/- ── Basic string helpers (Python str.strip, slicing, substring search) ── -/

/-- Whitespace characters recognised by Python's str.strip(). -/
def isPySpace (c : Char) : Bool :=
  c == ' ' || c == '\t' || c == '\n' || c == '\r' || c == '\x0b' || c == '\x0c'

/-- Python str.strip(): drop whitespace from both ends. -/
def pyStrip (s : String) : String :=
  String.mk (((s.data.dropWhile isPySpace).reverse.dropWhile isPySpace).reverse)

/-- Python slicing s[:n]. -/
def pyTakeChars (n : Nat) (s : String) : String :=
  String.mk (s.data.take n)

/-- Substring containment on character lists. -/
def listContainsSub (needle : List Char) : List Char → Bool
  | [] => needle.isEmpty
  | c :: rest => needle.isPrefixOf (c :: rest) || listContainsSub needle rest

/-- Substring containment on strings. -/
def containsSub (hay needle : String) : Bool :=
  listContainsSub needle.data hay.data

/-- ASCII lowercase of one character (the URL schemes and noise substrings
    the crawler compares are ASCII). -/
def asciiLower (c : Char) : Char :=
  if 'A' ≤ c ∧ c ≤ 'Z' then Char.ofNat (c.toNat + 32) else c

/-- ASCII lowercase of a string. -/
def asciiLowerStr (s : String) : String :=
  String.mk (s.data.map asciiLower)

/- ── Decimal digits ── -/

/-- The decimal digit character for n, defined for n < 10. -/
def digChar (n : Nat) : Char :=
  match n with
  | 0 => '0' | 1 => '1' | 2 => '2' | 3 => '3' | 4 => '4'
  | 5 => '5' | 6 => '6' | 7 => '7' | 8 => '8' | _ => '9'

/-- Value of a decimal digit character. -/
def digVal (c : Char) : Option Nat :=
  if '0' ≤ c ∧ c ≤ '9' then some (c.toNat - 48) else none

/-- Two decimal digit characters as a number. -/
def parseTwo (a b : Char) : Option Nat :=
  match digVal a, digVal b with
  | some x, some y => some (10 * x + y)
  | _, _ => none

/-- Four decimal digit characters as a number. -/
def parseFour (a b c d : Char) : Option Nat :=
  match digVal a, digVal b, digVal c, digVal d with
  | some x, some y, some z, some w => some (1000 * x + 100 * y + 10 * z + w)
  | _, _, _, _ => none

/-- Two-digit zero-padded decimal rendering, for n < 100. -/
def pad2 (n : Nat) : List Char := [digChar (n / 10), digChar (n % 10)]

/-- Four-digit zero-padded decimal rendering, for n < 10000. -/
def pad4 (n : Nat) : List Char :=
  [digChar (n / 1000), digChar (n / 100 % 10), digChar (n / 10 % 10), digChar (n % 10)]

/- ── The datetime model ──
   Python datetime values at second granularity.  tz is the UTC offset in
   minutes; none models a naive datetime.  Python's datetime constructor
   validates all components and raises on invalid input, so construction
   goes through mkDateTime, which returns none exactly when the Python
   constructor would raise. -/

structure DateTime where
  year : Nat
  month : Nat
  day : Nat
  hour : Nat
  minute : Nat
  second : Nat
  tz : Option Int
deriving DecidableEq, Repr

/-- Gregorian leap year test, as in Python's calendar rules. -/
def isLeap (y : Nat) : Bool :=
  y % 4 == 0 && (y % 100 != 0 || y % 400 == 0)

/-- Days in a month of a given year. -/
def daysInMonth (y m : Nat) : Nat :=
  if m = 2 then (if isLeap y then 29 else 28)
  else if m = 4 ∨ m = 6 ∨ m = 9 ∨ m = 11 then 30
  else 31

/-- The validity invariant of Python datetime objects. -/
def validDT (d : DateTime) : Prop :=
  1 ≤ d.year ∧ d.year ≤ 9999 ∧ 1 ≤ d.month ∧ d.month ≤ 12 ∧
  1 ≤ d.day ∧ d.day ≤ daysInMonth d.year d.month ∧
  d.hour ≤ 23 ∧ d.minute ≤ 59 ∧ d.second ≤ 59

instance (d : DateTime) : Decidable (validDT d) := by
  unfold validDT; infer_instance

/-- The datetime constructor: validates every component exactly as Python's
    datetime(...) does, returning none where Python raises ValueError. -/
def mkDateTime (y mo d h mi s : Nat) (tz : Option Int) : Option DateTime :=
  if 1 ≤ y ∧ y ≤ 9999 ∧ 1 ≤ mo ∧ mo ≤ 12 ∧ 1 ≤ d ∧ d ≤ daysInMonth y mo ∧
     h ≤ 23 ∧ mi ≤ 59 ∧ s ≤ 59
  then some ⟨y, mo, d, h, mi, s, tz⟩ else none

theorem mkDateTime_valid {y mo d h mi s tz dt} :
    mkDateTime y mo d h mi s tz = some dt → validDT dt ∧ dt.tz = tz := by
  unfold mkDateTime
  split
  · rename_i hb
    intro h'
    cases h'
    exact ⟨hb, rfl⟩
  · intro h'; cases h'

theorem mkDateTime_of_valid {dt : DateTime} (h : validDT dt) :
    mkDateTime dt.year dt.month dt.day dt.hour dt.minute dt.second dt.tz = some dt := by
  unfold mkDateTime
  split
  · rfl
  · rename_i hn; exact absurd h hn

/- ── Linearising instants for comparison (datetime ordering) ──
   Days-from-civil computation (proleptic Gregorian), used only to compare
   aware datetimes the way Python compares them: by their UTC instant. -/

/-- Days since 1970-01-01 of a Gregorian date. -/
def daysFromCivil (y m d : Nat) : Int :=
  let yi : Int := if m ≤ 2 then (y : Int) - 1 else (y : Int)
  let era : Int := yi / 400
  let yoe : Int := yi - era * 400
  let mp : Int := ((m : Int) + 9) % 12
  let doy : Int := (153 * mp + 2) / 5 + (d : Int) - 1
  let doe : Int := yoe * 365 + yoe / 4 - yoe / 100 + doy
  era * 146097 + doe - 719468

/-- The instant of a datetime in seconds since the epoch; a naive datetime is
    read at offset zero (Python would refuse to compare naive with aware, but
    every comparison performed by the crawler is between aware UTC values). -/
def DateTime.instantSecs (dt : DateTime) : Int :=
  daysFromCivil dt.year dt.month dt.day * 86400
    + ((dt.hour * 3600 + dt.minute * 60 + dt.second : Nat) : Int)
    - (dt.tz.getD 0) * 60

/-- Python's < on datetimes: comparison of instants. -/
def dtLt (a b : DateTime) : Prop := a.instantSecs < b.instantSecs

instance (a b : DateTime) : Decidable (dtLt a b) := by
  unfold dtLt; infer_instance

/- ── isoformat ── -/

/-- Offset suffix of datetime.isoformat(): empty for naive values,
    sign, hours and minutes otherwise (offset zero renders as +00:00). -/
def isoOffsetChars (tz : Option Int) : List Char :=
  match tz with
  | none => []
  | some off =>
    (if off < 0 then '-' else '+') ::
      (pad2 (off.natAbs / 60) ++ ':' :: pad2 (off.natAbs % 60))

/-- Python datetime.isoformat() at second granularity. -/
def pyIso (d : DateTime) : String :=
  String.mk
    (pad4 d.year ++ '-' :: pad2 d.month ++ '-' :: pad2 d.day ++
     'T' :: pad2 d.hour ++ ':' :: pad2 d.minute ++ ':' :: pad2 d.second ++
     isoOffsetChars d.tz)

/- ── Modelled dateutil parser ── -/

/-- Date part of an ISO 8601 string: YYYY-MM-DD followed by the rest. -/
def parseDatePart : List Char → Option (Nat × Nat × Nat × List Char)
  | c1 :: c2 :: c3 :: c4 :: '-' :: c5 :: c6 :: '-' :: c7 :: c8 :: rest =>
    match parseFour c1 c2 c3 c4, parseTwo c5 c6, parseTwo c7 c8 with
    | some y, some mo, some d => some (y, mo, d, rest)
    | _, _, _ => none
  | _ => none

/-- Time part of an ISO 8601 string: HH:MM:SS followed by the rest. -/
def parseTimePart : List Char → Option (Nat × Nat × Nat × List Char)
  | c1 :: c2 :: ':' :: c3 :: c4 :: ':' :: c5 :: c6 :: rest =>
    match parseTwo c1 c2, parseTwo c3 c4, parseTwo c5 c6 with
    | some h, some mi, some s => some (h, mi, s, rest)
    | _, _, _ => none
  | _ => none

/-- Offset part of an ISO 8601 string: empty (naive), Z, or a signed HH:MM
    offset; the resulting offset is in minutes. -/
def parseOffsetPart : List Char → Option (Option Int)
  | [] => some none
  | ['Z'] => some (some 0)
  | '+' :: a :: b :: ':' :: c :: d :: [] =>
    match parseTwo a b, parseTwo c d with
    | some hh, some mm =>
      if hh ≤ 23 ∧ mm ≤ 59 then some (some ((hh * 60 + mm : Nat) : Int)) else none
    | _, _ => none
  | '-' :: a :: b :: ':' :: c :: d :: [] =>
    match parseTwo a b, parseTwo c d with
    | some hh, some mm =>
      if hh ≤ 23 ∧ mm ≤ 59 then some (some (-((hh * 60 + mm : Nat) : Int))) else none
    | _, _ => none
  | _ => none

/-- Modelled from the spec: dateutil.parser.parse is an external library,
    modelled here as an ISO 8601 date/time parser ("Accepts any free-form
    date/time string ... returns a UTC instant with naive inputs assumed
    UTC, or none on unparseable input").  It accepts a date with optional
    time and optional UTC offset, validates components as the Python
    datetime constructor does, and is none exactly where the library call
    would raise. -/
def modelDateutilParse (s : String) : Option DateTime :=
  match parseDatePart s.data with
  | none => none
  | some (y, mo, d, rest) =>
    match rest with
    | [] => mkDateTime y mo d 0 0 0 none
    | 'T' :: rest2 =>
      match parseTimePart rest2 with
      | none => none
      | some (h, mi, sec, rest3) =>
        match parseOffsetPart rest3 with
        | none => none
        | some tz => mkDateTime y mo d h mi sec tz
    | _ => none

/- ── _to_utc (crawler.py lines 58-61) ── -/

/-- One civil day forward. -/
def succCivil : Nat × Nat × Nat → Nat × Nat × Nat
  | (y, m, d) =>
    if d < daysInMonth y m then (y, m, d + 1)
    else if m < 12 then (y, m + 1, 1)
    else (y + 1, 1, 1)

/-- One civil day backward. -/
def predCivil : Nat × Nat × Nat → Nat × Nat × Nat
  | (y, m, d) =>
    if 1 < d then (y, m, d - 1)
    else if 1 < m then (y, m - 1, daysInMonth y (m - 1))
    else (y - 1, 12, 31)

/-- Iterate a step function. -/
def iterSteps {α : Type} (f : α → α) : Nat → α → α
  | 0, x => x
  | n + 1, x => iterSteps f n (f x)

/-- Shift a civil date by a (small) signed number of days. -/
def addDaysCivil (y m d : Nat) (k : Int) : Nat × Nat × Nat :=
  match k with
  | .ofNat n => iterSteps succCivil n (y, m, d)
  | .negSucc n => iterSteps predCivil (n + 1) (y, m, d)

/-- datetime.astimezone(timezone.utc) on an aware value with offset off
    minutes: shift the wall-clock reading to offset zero.  Returns none
    where Python would raise OverflowError (result outside year 1..9999). -/
def astimezoneUtc (dt : DateTime) (off : Int) : Option DateTime :=
  let tot : Int := ((dt.hour * 3600 + dt.minute * 60 + dt.second : Nat) : Int) - off * 60
  let dshift : Int := tot / 86400
  let rem : Nat := (tot % 86400).toNat
  let c := addDaysCivil dt.year dt.month dt.day dshift
  mkDateTime c.1 c.2.1 c.2.2 (rem / 3600) (rem % 3600 / 60) (rem % 60) (some 0)

/-- crawler._to_utc: naive datetimes are stamped as UTC, aware ones are
    converted to UTC.  Fallible (Option) because astimezone can overflow;
    the caller catches the exception. -/
def toUtc (dt : DateTime) : Option DateTime :=
  match dt.tz with
  | none => some { dt with tz := some 0 }
  | some off => astimezoneUtc dt off

/-- crawler._parse_date_str: parse an arbitrary date string to a UTC
    datetime, none on any failure. -/
def parseDateStr (s : String) : Option DateTime :=
  match modelDateutilParse s with
  | none => none
  | some dt => toUtc dt

/-- datetime.fromtimestamp(ts, tz=timezone.utc): civil date from days since
    the epoch (proleptic Gregorian, Hinnant's algorithm) plus the in-day
    remainder. -/
def civilFromDays (z0 : Int) : Nat × Nat × Nat :=
  let z : Int := z0 + 719468
  let era : Int := (if 0 ≤ z then z else z - 146096) / 146097
  let doe : Int := z - era * 146097
  let yoe : Int := (doe - doe / 1460 + doe / 36524 - doe / 146096) / 365
  let y : Int := yoe + era * 400
  let doy : Int := doe - (365 * yoe + yoe / 4 - yoe / 100)
  let mp : Int := (5 * doy + 2) / 153
  let d : Int := doy - (153 * mp + 2) / 5 + 1
  let m : Int := if mp < 10 then mp + 3 else mp - 9
  let y2 : Int := if m ≤ 2 then y + 1 else y
  (y2.toNat, m.toNat, d.toNat)

/-- datetime.fromtimestamp(ts, tz=timezone.utc) at second granularity. -/
def fromTimestampUtc (ts : Int) : DateTime :=
  let days : Int := ts / 86400
  let rem : Nat := (ts % 86400).toNat
  match civilFromDays days with
  | (y, m, d) => ⟨y, m, d, rem / 3600, rem % 3600 / 60, rem % 60, some 0⟩

/- ── URL model (urllib.parse subset) ── -/

structure ParsedUrl where
  scheme : String
  netloc : String
  path : String
deriving DecidableEq, Repr

/-- Split a leading scheme: alphabetic run followed by a colon. -/
def splitScheme (s : String) : Option (String × String) :=
  let pre := s.data.takeWhile (fun c => c.isAlpha)
  match s.data.drop pre.length with
  | ':' :: r => if pre.isEmpty then none else some (String.mk pre, String.mk r)
  | _ => none

/-- Drop a query or fragment suffix from a path. -/
def cutQueryFrag (cs : List Char) : List Char :=
  cs.takeWhile (fun c => c ≠ '?' ∧ c ≠ '#')

/-- Modelled from the spec: urllib.parse.urlparse, restricted to the fields
    the crawler reads (scheme, netloc, path); scheme is lowercased as the
    library does, query and fragment are split off the path. -/
def urlparseModel (s : String) : ParsedUrl :=
  match splitScheme s with
  | some (sch, rest) =>
    if rest.data.take 2 = ['/', '/'] then
      let afterSlashes := rest.data.drop 2
      let host := afterSlashes.takeWhile (fun c => c ≠ '/' ∧ c ≠ '?' ∧ c ≠ '#')
      let tail := afterSlashes.drop host.length
      ⟨asciiLowerStr sch, String.mk host, String.mk (cutQueryFrag tail)⟩
    else ⟨asciiLowerStr sch, "", String.mk (cutQueryFrag rest.data)⟩
  | none =>
    if s.data.take 2 = ['/', '/'] then
      let afterSlashes := s.data.drop 2
      let host := afterSlashes.takeWhile (fun c => c ≠ '/' ∧ c ≠ '?' ∧ c ≠ '#')
      let tail := afterSlashes.drop host.length
      ⟨"", String.mk host, String.mk (cutQueryFrag tail)⟩
    else ⟨"", "", String.mk (cutQueryFrag s.data)⟩

/-- Scheme and authority of a URL, e.g. https://host. -/
def schemeHostOf (base : String) : String :=
  let p := urlparseModel base
  p.scheme ++ "://" ++ p.netloc

/-- Directory part of a path: everything up to and including the last slash. -/
def dirOfPath (cs : List Char) : List Char :=
  (cs.reverse.dropWhile (fun c => c ≠ '/')).reverse

/-- Modelled from the spec: urllib.parse.urljoin for the reference shapes the
    crawler meets ("Resolve every discovered href against baseURL to an
    absolute URL"): absolute references are kept, network-path and absolute
    and relative paths are resolved against the base. -/
def urljoinModel (base href : String) : String :=
  match splitScheme href with
  | some _ => href
  | none =>
    if href.data.take 2 = ['/', '/'] then (urlparseModel base).scheme ++ ":" ++ href
    else if href.data.take 1 = ['/'] then schemeHostOf base ++ href
    else schemeHostOf base ++ String.mk (dirOfPath (urlparseModel base).path.data) ++ href

/-- The noise blocklist substrings of _extract_article_links (crawler.py
    lines 174-178), matched case-insensitively against the parsed path. -/
def noisePathSubs : List String :=
  ["/tag/", "/tags/", "/category/", "/categories/", "/author/", "/page/",
   "/search/", "/login/", "/signup/", "/about/", "/contact/", "/privacy/",
   "/terms/", "#", "javascript:", "mailto:"]

/-- noise_patterns.search(parsed.path): case-insensitive substring match. -/
def noiseSearch (path : String) : Bool :=
  noisePathSubs.any (fun sub => containsSub (asciiLowerStr path) sub)

/- ── _date_from_url (crawler.py lines 41-44, 72-85) ── -/

/-- A date-pattern separator: slash or hyphen. -/
def isSep (c : Char) : Bool := c == '/' || c == '-'

/-- First regex alternative at the head of the input:
    slash, four digits, separator, two digits, separator, two digits, slash. -/
def tryAlt1 : List Char → Option (Nat × Nat × Nat)
  | '/' :: c1 :: c2 :: c3 :: c4 :: s1 :: c5 :: c6 :: s2 :: c7 :: c8 :: '/' :: _ =>
    match parseFour c1 c2 c3 c4, parseTwo c5 c6, parseTwo c7 c8 with
    | some y, some mo, some d =>
      if isSep s1 ∧ isSep s2 then some (y, mo, d) else none
    | _, _, _ => none
  | _ => none

/-- Second regex alternative at the head of the input:
    slash, eight digits, slash; digits split as in _date_from_url. -/
def tryAlt2 : List Char → Option (Nat × Nat × Nat)
  | '/' :: c1 :: c2 :: c3 :: c4 :: c5 :: c6 :: c7 :: c8 :: '/' :: _ =>
    match parseFour c1 c2 c3 c4, parseTwo c5 c6, parseTwo c7 c8 with
    | some y, some mo, some d => some (y, mo, d)
    | _, _, _ => none
  | _ => none

/-- Both alternatives at the head of the input, first alternative preferred,
    as the regex engine tries them at one position. -/
def tryDateAt (cs : List Char) : Option (Nat × Nat × Nat) :=
  match tryAlt1 cs with
  | some g => some g
  | none => tryAlt2 cs

/-- _DATE_IN_URL.search: leftmost match of the date pattern. -/
def searchDate : List Char → Option (Nat × Nat × Nat)
  | [] => none
  | c :: rest =>
    match tryDateAt (c :: rest) with
    | some g => some g
    | none => searchDate rest

/-- crawler._date_from_url: regex search over the URL string, then the
    datetime constructor on the captured digits at UTC midnight; any
    constructor failure yields none. -/
def dateFromUrl (url : String) : Option DateTime :=
  match searchDate url.data with
  | none => none
  | some (y, mo, d) => mkDateTime y mo d 0 0 0 (some 0)

/-- Defined from the words of the claim, for comparison with dateFromUrl:
    the URL's path contains a date segment (in either pattern) whose digits
    form a valid calendar date. -/
def pathHasValidDateSeg (url : String) : Bool :=
  let p := (urlparseModel url).path.data
  (List.range (p.length + 1)).any (fun n =>
    match tryDateAt (p.drop n) with
    | some (y, mo, d) => (mkDateTime y mo d 0 0 0 (some 0)).isSome
    | none => false)

/- ── HTML signal extractor: date extraction (crawler.py lines 88-135) ──
   The parsed document is the input: a script block is either a malformed
   JSON payload (json.loads or indexing raised) or an object with string
   fields; meta and time elements carry the attributes the code reads. -/

/-- A JSON-LD script block after json.loads (a leading list is replaced by
    its first element by the code; any failure of that pipeline is
    malformed). -/
inductive LdJson where
  | malformed
  | obj (fields : List (String × String))
deriving DecidableEq, Repr

structure MetaTag where
  property : Option String
  name : Option String
  content : Option String
deriving DecidableEq, Repr

structure TimeTag where
  datetimeAttr : Option String
  text : String
deriving DecidableEq, Repr

/-- A listing/article page as BeautifulSoup exposes it to the date
    extractor; parseFail models BeautifulSoup raising on the raw bytes. -/
inductive HtmlDoc where
  | parseFail
  | doc (ld : List LdJson) (metas : List MetaTag) (times : List TimeTag)
deriving DecidableEq, Repr

/-- First-match association lookup (dict access data[field]). -/
def lookupAssoc : List (String × String) → String → Option String
  | [], _ => none
  | (k, v) :: rest, key => if k = key then some v else lookupAssoc rest key

/-- One JSON-LD field: present and parseable, or nothing. -/
def ldFieldDate (fields : List (String × String)) (key : String) : Option DateTime :=
  match lookupAssoc fields key with
  | some v => parseDateStr v
  | none => none

/-- Date from one JSON-LD block: datePublished, then dateModified, then
    dateCreated; a field that is absent or unparseable falls through to the
    next; a malformed block yields nothing. -/
def ldBlockDate : LdJson → Option DateTime
  | .malformed => none
  | .obj fields =>
    match ldFieldDate fields "datePublished" with
    | some d => some d
    | none =>
      match ldFieldDate fields "dateModified" with
      | some d => some d
      | none => ldFieldDate fields "dateCreated"

/-- Layer 1: first JSON-LD block that yields a date. -/
def ldFirstDate : List LdJson → Option DateTime
  | [] => none
  | b :: rest =>
    match ldBlockDate b with
    | some d => some d
    | none => ldFirstDate rest

/-- soup.find("meta", attrs) by property, falling back to find by name. -/
def metaFindTag (metas : List MetaTag) (prop : String) : Option MetaTag :=
  match metas.find? (fun t => t.property == some prop) with
  | some t => some t
  | none => metas.find? (fun t => t.name == some prop)

/-- Date for one meta property: the found tag must have truthy content and
    the content must parse. -/
def metaPropDate (metas : List MetaTag) (prop : String) : Option DateTime :=
  match metaFindTag metas prop with
  | some t =>
    match t.content with
    | some c => if c = "" then none else parseDateStr c
    | none => none
  | none => none

/-- Layer 2: the meta properties in the exact order of the code. -/
def metaFirstDate (metas : List MetaTag) : Option DateTime :=
  match metaPropDate metas "article:published_time" with
  | some d => some d
  | none =>
    match metaPropDate metas "article:modified_time" with
    | some d => some d
    | none =>
      match metaPropDate metas "og:updated_time" with
      | some d => some d
      | none =>
        match metaPropDate metas "date" with
        | some d => some d
        | none =>
          match metaPropDate metas "pubdate" with
          | some d => some d
          | none => metaPropDate metas "DC.date"

/-- The string a time element contributes: its datetime attribute if truthy,
    else its stripped text. -/
def timeTagVal (t : TimeTag) : String :=
  match t.datetimeAttr with
  | some a => if a = "" then t.text else a
  | none => t.text

/-- Layer 3: first time element whose value is truthy and parses. -/
def timeFirstDate : List TimeTag → Option DateTime
  | [] => none
  | t :: rest =>
    match (if timeTagVal t = "" then none else parseDateStr (timeTagVal t)) with
    | some d => some d
    | none => timeFirstDate rest

/-- crawler._extract_date_from_html: JSON-LD, then meta tags, then time
    elements, then the URL-path date; a soup-level failure also falls back
    to the URL. -/
def extractDateFromHtml (h : HtmlDoc) (url : String) : Option DateTime :=
  match h with
  | .parseFail => dateFromUrl url
  | .doc ld metas times =>
    match ldFirstDate ld with
    | some d => some d
    | none =>
      match metaFirstDate metas with
      | some d => some d
      | none =>
        match timeFirstDate times with
        | some d => some d
        | none => dateFromUrl url

/- ── HTML signal extractor: link extraction (crawler.py lines 147-201) ── -/

/-- An element returned by a soup query; the code reads only a.get("href")
    (every BeautifulSoup tag has .get, so the other branches of the href
    expression are unreachable). -/
structure Elem where
  href : Option String
deriving DecidableEq, Repr

/-- The query results of one parsed listing page: the three heuristic
    container queries, the all-anchors query (href present), and the
    CSS-selector query as a function of the selector string. -/
structure Soup where
  articles : List Elem
  mainHeadingAnchors : List Elem
  titleClassAnchors : List Elem
  allAnchors : List Elem
  select : String → List Elem

/-- Python truthiness of an optional string. -/
def optStrTruthy : Option String → Bool
  | none => false
  | some s => s != ""

/-- Candidate elements of _extract_article_links: the user selector if
    truthy; otherwise the heuristic container cascade feeds a conditional
    that rereads the selector's truthiness, so the cascade result is
    discarded and the all-anchors fallback is reached (see C1). -/
def chooseAnchors (soup : Soup) (selector : Option String) : List Elem :=
  if optStrTruthy selector then soup.select (selector.getD "")
  else
    let containers :=
      if soup.articles ≠ [] then soup.articles
      else if soup.mainHeadingAnchors ≠ [] then soup.mainHeadingAnchors
      else soup.titleClassAnchors
    let anchors0 : List Elem := if optStrTruthy selector then containers else []
    if anchors0 = [] then soup.allAnchors else anchors0

/-- The per-anchor filter and normalisation loop: skip missing or empty
    href, resolve against the base, keep only http(s), drop noise paths,
    deduplicate preserving first-seen order. -/
def linksLoop (baseUrl : String) : List Elem → List String → List String → List String
  | [], _, acc => acc
  | a :: rest, seen, acc =>
    match a.href with
    | none => linksLoop baseUrl rest seen acc
    | some href =>
      if href = "" then linksLoop baseUrl rest seen acc
      else
        let full := urljoinModel baseUrl href
        let parsed := urlparseModel full
        if ¬ (parsed.scheme = "http" ∨ parsed.scheme = "https") then
          linksLoop baseUrl rest seen acc
        else if noiseSearch parsed.path then
          linksLoop baseUrl rest seen acc
        else if full ∈ seen then
          linksLoop baseUrl rest seen acc
        else
          linksLoop baseUrl rest (seen ++ [full]) (acc ++ [full])

/-- crawler._extract_article_links on a parsed listing page. -/
def extractArticleLinks (soup : Soup) (baseUrl : String) (selector : Option String) :
    List String :=
  linksLoop baseUrl (chooseAnchors soup selector) [] []

/- ── Article records and source descriptors (crawler.py data model) ── -/

structure Article where
  title : String
  url : String
  published_at : String
  summary : String
  source : String
  category : String
deriving DecidableEq, Repr

/-- A source descriptor as a JSON object: a missing key is none. -/
structure SourceDesc where
  name : Option String
  url : Option String
  srcType : Option String
  category : Option String
  articleSelector : Option String
  maxArticles : Option Nat
deriving DecidableEq, Repr

/-- Modelled from the spec: BeautifulSoup(...).get_text plain-text
    conversion is an external library whose output no claim depends on;
    _html_to_text is embedded as that conversion followed by the [:max_chars]
    truncation the code applies. -/
def htmlToText (html : String) (maxChars : Nat) : String :=
  pyTakeChars maxChars html

/- ── Feed strategy (crawler.py lines 206-259) ── -/

/-- A feedparser entry: the *_parsed fields carry the POSIX timestamp that
    time.mktime would produce from the struct_time (none when the field is
    absent or mktime raises); the string fields and title/link/summary are
    the raw attributes; content holds the value field of each content
    block. -/
structure FeedEntry where
  published_parsed : Option Int
  updated_parsed : Option Int
  created_parsed : Option Int
  published : Option String
  updated : Option String
  created : Option String
  title : Option String
  link : Option String
  summary : Option String
  content : List (Option String)
deriving DecidableEq, Repr

/-- crawler._feedparser_entry_date: the three parsed time fields through
    fromtimestamp, then the three raw strings through _parse_date_str,
    first success wins. -/
def feedparserEntryDate (e : FeedEntry) : Option DateTime :=
  match e.published_parsed with
  | some ts => some (fromTimestampUtc ts)
  | none =>
    match e.updated_parsed with
    | some ts => some (fromTimestampUtc ts)
    | none =>
      match e.created_parsed with
      | some ts => some (fromTimestampUtc ts)
      | none =>
        match e.published.bind (fun v => if v = "" then none else parseDateStr v) with
        | some d => some d
        | none =>
          match e.updated.bind (fun v => if v = "" then none else parseDateStr v) with
          | some d => some d
          | none => e.created.bind (fun v => if v = "" then none else parseDateStr v)

/-- The summary source text of a feed entry: the summary attribute if
    present, else the first content block's value. -/
def feedEntryRaw (e : FeedEntry) : String :=
  match e.summary with
  | some s => s
  | none =>
    match e.content with
    | v :: _ => v.getD ""
    | [] => ""

/-- The accept/build step of the fetch_rss loop body for one entry: none
    when the entry is skipped (no resolvable date, or date before cutoff),
    otherwise the normalized article record. -/
def rssAccept (cutoff : DateTime) (src : SourceDesc) (maxChars : Nat)
    (e : FeedEntry) : Option Article :=
  match feedparserEntryDate e with
  | none => none
  | some pub =>
    if dtLt pub cutoff then none
    else
      some
        { title := pyStrip (e.title.getD "")
          url := pyStrip (e.link.getD (src.url.getD ""))
          published_at := pyIso pub
          summary := if feedEntryRaw e = "" then "" else htmlToText (feedEntryRaw e) maxChars
          source := src.name.getD ""
          category := src.category.getD "tech" }

/-- The fetch_rss entry loop with its accepted-count cap. -/
def fetchRssGo (cutoff : DateTime) (src : SourceDesc) (maxChars mp : Nat) :
    List FeedEntry → List Article → List Article
  | [], acc => acc
  | e :: rest, acc =>
    if mp ≤ acc.length then acc
    else
      match rssAccept cutoff src maxChars e with
      | none => fetchRssGo cutoff src maxChars mp rest acc
      | some a => fetchRssGo cutoff src maxChars mp rest (acc ++ [a])

/-- crawler.fetch_rss: the fetched and parsed feed is the input; none
    models the request or feedparser raising, which yields no articles. -/
def fetchRss (src : SourceDesc) (feedResult : Option (List FeedEntry))
    (cutoff : DateTime) (mp maxChars : Nat) : List Article :=
  match feedResult with
  | none => []
  | some entries => fetchRssGo cutoff src maxChars mp entries []

/- ── Sitemap strategy (crawler.py lines 264-343) ── -/

/-- One url element of a sitemap: the loc, news publication date, lastmod
    and news title child texts (none when the child is absent or empty as
    ElementTree reports it). -/
structure UrlEntry where
  loc : Option String
  newsDate : Option String
  lastmod : Option String
  newsTitle : Option String
deriving DecidableEq, Repr

/-- The date of a sitemap entry: the news publication date if present,
    truthy and parseable, else lastmod under the same conditions. -/
def smEntryDate (e : UrlEntry) : Option DateTime :=
  match e.newsDate.bind (fun t => if t = "" then none else parseDateStr t) with
  | some d => some d
  | none => e.lastmod.bind (fun t => if t = "" then none else parseDateStr t)

/-- The title text a sitemap entry carries before the URL fallback. -/
def smRawTitle (e : UrlEntry) : String :=
  match e.newsTitle with
  | some t => if t = "" then "" else pyStrip t
  | none => ""

/-- The accept/build step of the fetch_sitemap inner loop for one url
    element. -/
def smAccept (cutoff : DateTime) (src : SourceDesc) (e : UrlEntry) : Option Article :=
  match e.loc with
  | none => none
  | some loc0 =>
    if loc0 = "" then none
    else
      let articleUrl := pyStrip loc0
      match smEntryDate e with
      | none => none
      | some pub =>
        if dtLt pub cutoff then none
        else
          some
            { title := if smRawTitle e = "" then articleUrl else smRawTitle e
              url := articleUrl
              published_at := pyIso pub
              summary := ""
              source := src.name.getD ""
              category := src.category.getD "tech" }

/-- The fetch_sitemap inner loop over one sitemap's url elements. -/
def smInner (cutoff : DateTime) (src : SourceDesc) (mp : Nat) :
    List UrlEntry → List Article → List Article
  | [], acc => acc
  | e :: rest, acc =>
    if mp ≤ acc.length then acc
    else
      match smAccept cutoff src e with
      | none => smInner cutoff src mp rest acc
      | some a => smInner cutoff src mp rest (acc ++ [a])

/-- The fetch_sitemap outer loop over the resolved child sitemaps; a child
    whose fetch or parse failed (none) is skipped. -/
def fetchSitemapGo (cutoff : DateTime) (src : SourceDesc) (mp : Nat) :
    List (Option (List UrlEntry)) → List Article → List Article
  | [], acc => acc
  | r :: rest, acc =>
    if mp ≤ acc.length then acc
    else
      match r with
      | none => fetchSitemapGo cutoff src mp rest acc
      | some entries => fetchSitemapGo cutoff src mp rest (smInner cutoff src mp entries acc)

/-- crawler.fetch_sitemap: the resolved child sitemaps with their fetched
    url elements are the input. -/
def fetchSitemap (src : SourceDesc) (smResults : List (Option (List UrlEntry)))
    (cutoff : DateTime) (mp : Nat) : List Article :=
  fetchSitemapGo cutoff src mp smResults []

/- ── Web strategy (crawler.py lines 348-464) ── -/

/-- What _scrape_article hands back for one candidate URL (its fetch and
    extraction pipeline is the scrape oracle's business; None means the
    article page fetch failed). -/
structure ScrapeResult where
  title : String
  pub_dt : Option DateTime
  summary : String
deriving DecidableEq, Repr

/-- The keep/mark/drop step of the fetch_web loop on a scraped article:
    no date resolved keeps the article with the unknown sentinel; a
    resolved date before cutoff drops it; otherwise it is kept with the
    ISO date. -/
def webKeep (cutoff : DateTime) (src : SourceDesc) (link : String)
    (r : ScrapeResult) : Option Article :=
  match r.pub_dt with
  | none =>
    some
      { title := pyStrip (if r.title = "" then link else r.title)
        url := link
        published_at := "unknown"
        summary := r.summary
        source := src.name.getD ""
        category := src.category.getD "tech" }
  | some d =>
    if dtLt d cutoff then none
    else
      some
        { title := pyStrip (if r.title = "" then link else r.title)
          url := link
          published_at := pyIso d
          summary := r.summary
          source := src.name.getD ""
          category := src.category.getD "tech" }

/-- One candidate link through the scrape oracle and the keep step. -/
def webAccept (scrape : String → Option ScrapeResult) (cutoff : DateTime)
    (src : SourceDesc) (link : String) : Option Article :=
  match scrape link with
  | none => none
  | some r => webKeep cutoff src link r

/-- The fetch_web candidate loop with its two ceilings: accepted articles
    (mp) and checked candidates (mc). -/
def webLoop (scrape : String → Option ScrapeResult) (cutoff : DateTime)
    (src : SourceDesc) (mp mc : Nat) :
    List String → List Article → Nat → List Article
  | [], acc, _ => acc
  | link :: rest, acc, checked =>
    if mp ≤ acc.length then acc
    else if mc ≤ checked then acc
    else
      match webAccept scrape cutoff src link with
      | none => webLoop scrape cutoff src mp mc rest acc (checked + 1)
      | some a => webLoop scrape cutoff src mp mc rest (acc ++ [a]) (checked + 1)

/-- crawler.fetch_web: the fetched listing page (parsed) and the scrape
    oracle are the inputs; a listing fetch failure (none) yields no
    articles. -/
def fetchWeb (src : SourceDesc) (listing : Option Soup)
    (scrape : String → Option ScrapeResult) (cutoff : DateTime) (mp : Nat) :
    List Article :=
  let maxToCheck := src.maxArticles.getD (mp * 3)
  match listing with
  | none => []
  | some soup =>
    let links := extractArticleLinks soup (src.url.getD "") src.articleSelector
    webLoop scrape cutoff src mp maxToCheck links [] 0

/- ── Aggregator (crawler.py lines 469-515) ── -/

inductive Strat where
  | rss
  | sitemap
  | web
deriving DecidableEq, Repr

/-- The dispatch table lookup dispatch.get(src_type). -/
def dispatchGet (t : String) : Option Strat :=
  if t = "rss" then some .rss
  else if t = "sitemap" then some .sitemap
  else if t = "web" then some .web
  else none

/-- The log lines crawl_all can emit per source. -/
inductive LogMsg where
  | unknownType (srcName : String) (t : String)
  | fetchError (srcName : String)
deriving DecidableEq, Repr

/-- The crawl_all source loop: skip descriptors missing url or name, default
    the type to rss, warn and skip unknown types, and catch any strategy
    exception (Except.error) while keeping earlier results. -/
def crawlAllGo (outcome : SourceDesc → Strat → Except Unit (List Article)) :
    List SourceDesc → List Article → List LogMsg → List Article × List LogMsg
  | [], arts, logs => (arts, logs)
  | s :: rest, arts, logs =>
    if s.url = none ∨ s.name = none then crawlAllGo outcome rest arts logs
    else
      let t := s.srcType.getD "rss"
      match dispatchGet t with
      | none => crawlAllGo outcome rest arts (logs ++ [.unknownType (s.name.getD "") t])
      | some k =>
        match outcome s k with
        | .ok as => crawlAllGo outcome rest (arts ++ as) logs
        | .error _ => crawlAllGo outcome rest arts (logs ++ [.fetchError (s.name.getD "")])

/-- crawler.crawl_all: the per-source strategy runs are the outcome oracle
    (an Except models a raised exception); returns the collected articles
    and the warning/error log. -/
def crawlAll (outcome : SourceDesc → Strat → Except Unit (List Article))
    (sources : List SourceDesc) : List Article × List LogMsg :=
  crawlAllGo outcome sources [] []

/-- Articles of a strategy outcome; an exception contributes nothing. -/
def exceptArticles : Except Unit (List Article) → List Article
  | .ok as => as
  | .error _ => []

/-- Whether a log contains an unknown-type warning. -/
def logsHaveUnknownType (logs : List LogMsg) : Bool :=
  logs.any (fun m =>
    match m with
    | .unknownType _ _ => true
    | .fetchError _ => false)

/-- Per-source article contribution of crawl_all, written compositionally
    for the aggregation theorems. -/
def perSourceAs (outcome : SourceDesc → Strat → Except Unit (List Article))
    (s : SourceDesc) : List Article :=
  if s.url = none ∨ s.name = none then []
  else
    match dispatchGet (s.srcType.getD "rss") with
    | none => []
    | some k => exceptArticles (outcome s k)

/-- Per-source log contribution of crawl_all. -/
def perSourceLog (outcome : SourceDesc → Strat → Except Unit (List Article))
    (s : SourceDesc) : Option LogMsg :=
  if s.url = none ∨ s.name = none then none
  else
    match dispatchGet (s.srcType.getD "rss") with
    | none => some (.unknownType (s.name.getD "") (s.srcType.getD "rss"))
    | some k =>
      match outcome s k with
      | .ok _ => none
      | .error _ => some (.fetchError (s.name.getD ""))

/- ── Helper lemmas: loop characterizations ── -/

theorem fetchRssGo_eq (cutoff : DateTime) (src : SourceDesc) (maxChars mp : Nat) :
    ∀ (es : List FeedEntry) (acc : List Article),
      fetchRssGo cutoff src maxChars mp es acc
        = acc ++ (es.filterMap (rssAccept cutoff src maxChars)).take (mp - acc.length) := by
  intro es
  induction es with
  | nil => intro acc; simp [fetchRssGo]
  | cons e rest ih =>
    intro acc
    by_cases hcap : mp ≤ acc.length
    · have h0 : mp - acc.length = 0 := by omega
      simp [fetchRssGo, hcap, h0]
    · cases hacc : rssAccept cutoff src maxChars e with
      | none => simp [fetchRssGo, hcap, hacc, ih]
      | some a =>
        have h1 : mp - acc.length = (mp - (acc.length + 1)) + 1 := by omega
        simp only [fetchRssGo, if_neg hcap, hacc, ih, h1,
          List.length_append, List.length_cons, List.length_nil]
        simp [List.filterMap_cons, hacc]

theorem smInner_eq (cutoff : DateTime) (src : SourceDesc) (mp : Nat) :
    ∀ (es : List UrlEntry) (acc : List Article),
      smInner cutoff src mp es acc
        = acc ++ (es.filterMap (smAccept cutoff src)).take (mp - acc.length) := by
  intro es
  induction es with
  | nil => intro acc; simp [smInner]
  | cons e rest ih =>
    intro acc
    by_cases hcap : mp ≤ acc.length
    · have h0 : mp - acc.length = 0 := by omega
      simp [smInner, hcap, h0]
    · cases hacc : smAccept cutoff src e with
      | none => simp [smInner, hcap, hacc, ih]
      | some a =>
        have h1 : mp - acc.length = (mp - (acc.length + 1)) + 1 := by omega
        simp only [smInner, if_neg hcap, hacc, ih, h1,
          List.length_append, List.length_cons, List.length_nil]
        simp [List.filterMap_cons, hacc]

theorem fetchSitemapGo_eq (cutoff : DateTime) (src : SourceDesc) (mp : Nat) :
    ∀ (rs : List (Option (List UrlEntry))) (acc : List Article),
      fetchSitemapGo cutoff src mp rs acc
        = acc ++ ((rs.map (fun r => (r.getD []).filterMap (smAccept cutoff src))).flatten).take
            (mp - acc.length) := by
  intro rs
  induction rs with
  | nil => intro acc; simp [fetchSitemapGo]
  | cons r rest ih =>
    intro acc
    by_cases hcap : mp ≤ acc.length
    · have h0 : mp - acc.length = 0 := by omega
      simp [fetchSitemapGo, hcap, h0]
    · cases r with
      | none => simp [fetchSitemapGo, hcap, ih]
      | some entries =>
        simp only [fetchSitemapGo, if_neg hcap, smInner_eq, ih, List.map_cons,
          List.flatten_cons, Option.getD_some]
        rw [List.take_append_eq_append_take, List.length_append, List.length_take]
        have h2 : mp - (acc.length + min (mp - acc.length)
            (((entries.filterMap (smAccept cutoff src))).length)) =
            (mp - acc.length) - ((entries.filterMap (smAccept cutoff src))).length := by
          omega
        rw [h2, List.append_assoc]

theorem webLoop_eq (scrape : String → Option ScrapeResult) (cutoff : DateTime)
    (src : SourceDesc) (mp mc : Nat) :
    ∀ (links : List String) (acc : List Article) (checked : Nat),
      webLoop scrape cutoff src mp mc links acc checked
        = acc ++ (((links.take (mc - checked)).filterMap
            (webAccept scrape cutoff src)).take (mp - acc.length)) := by
  intro links
  induction links with
  | nil => intro acc checked; simp [webLoop]
  | cons link rest ih =>
    intro acc checked
    by_cases hcap : mp ≤ acc.length
    · have h0 : mp - acc.length = 0 := by omega
      simp [webLoop, hcap, h0]
    · by_cases hchk : mc ≤ checked
      · have h0 : mc - checked = 0 := by omega
        simp [webLoop, hcap, hchk, h0]
      · have h1 : mc - checked = (mc - (checked + 1)) + 1 := by omega
        cases hacc : webAccept scrape cutoff src link with
        | none =>
          simp only [webLoop, if_neg hcap, if_neg hchk, hacc, ih, h1,
            List.take_succ_cons]
          simp [List.filterMap_cons, hacc]
        | some a =>
          have h2 : mp - acc.length = (mp - (acc.length + 1)) + 1 := by omega
          simp only [webLoop, if_neg hcap, if_neg hchk, hacc, ih, h1,
            List.take_succ_cons, h2,
            List.length_append, List.length_cons, List.length_nil]
          simp [List.filterMap_cons, hacc]

theorem crawlAllGo_eq (outcome : SourceDesc → Strat → Except Unit (List Article)) :
    ∀ (sources : List SourceDesc) (arts : List Article) (logs : List LogMsg),
      crawlAllGo outcome sources arts logs
        = (arts ++ (sources.map (perSourceAs outcome)).flatten,
           logs ++ sources.filterMap (perSourceLog outcome)) := by
  intro sources
  induction sources with
  | nil => intro arts logs; simp [crawlAllGo]
  | cons s rest ih =>
    intro arts logs
    by_cases hskip : s.url = none ∨ s.name = none
    · simp [crawlAllGo, hskip, ih, perSourceAs, perSourceLog]
    · cases hdisp : dispatchGet (s.srcType.getD "rss") with
      | none =>
        simp [crawlAllGo, hskip, hdisp, ih, perSourceAs, perSourceLog]
      | some k =>
        cases hout : outcome s k with
        | ok as =>
          simp [crawlAllGo, hskip, hdisp, hout, ih, perSourceAs, perSourceLog,
            exceptArticles]
        | error err =>
          simp [crawlAllGo, hskip, hdisp, hout, ih, perSourceAs, perSourceLog,
            exceptArticles]

/- ── Helper lemmas: the date resolver ── -/

theorem digVal_digChar {n : Nat} (h : n ≤ 9) : digVal (digChar n) = some n := by
  interval_cases n <;> rfl

theorem parseTwo_pad2 {n : Nat} (h : n ≤ 99) :
    parseTwo (digChar (n / 10)) (digChar (n % 10)) = some n := by
  unfold parseTwo
  rw [digVal_digChar (by omega), digVal_digChar (by omega)]
  simp only []
  congr 1
  omega

theorem parseFour_pad4 {n : Nat} (h : n ≤ 9999) :
    parseFour (digChar (n / 1000)) (digChar (n / 100 % 10)) (digChar (n / 10 % 10))
      (digChar (n % 10)) = some n := by
  unfold parseFour
  rw [digVal_digChar (by omega), digVal_digChar (by omega), digVal_digChar (by omega),
    digVal_digChar (by omega)]
  simp only []
  congr 1
  omega

theorem modelParse_valid {s : String} {dt : DateTime} :
    modelDateutilParse s = some dt → validDT dt := by
  unfold modelDateutilParse
  intro h
  repeat' split at h
  all_goals first
    | cases h
    | exact (mkDateTime_valid h).1

theorem toUtc_valid {dt d : DateTime} (hv : validDT dt) :
    toUtc dt = some d → validDT d ∧ d.tz = some 0 := by
  unfold toUtc
  intro h
  split at h
  · cases h
    refine ⟨?_, rfl⟩
    obtain ⟨y, mo, dd, hh, mi, s, tz⟩ := dt
    exact hv
  · unfold astimezoneUtc at h
    exact ⟨(mkDateTime_valid h).1, (mkDateTime_valid h).2⟩

theorem addDaysCivil_zero (y m d : Nat) : addDaysCivil y m d 0 = (y, m, d) := rfl

theorem astimezoneUtc_zero {dt : DateTime} (hv : validDT dt) :
    astimezoneUtc dt 0 = some { dt with tz := some 0 } := by
  obtain ⟨y, mo, dd, hh, mi, s, tz⟩ := dt
  obtain ⟨v1, v2, v3, v4, v5, v6, v7, v8, v9⟩ := hv
  simp only at v7 v8 v9
  unfold astimezoneUtc
  simp only []
  have e1 : ((hh * 3600 + mi * 60 + s : Nat) : Int) - 0 * 60
      = ((hh * 3600 + mi * 60 + s : Nat) : Int) := by omega
  rw [e1]
  have e2 : ((hh * 3600 + mi * 60 + s : Nat) : Int) / 86400 = 0 := by omega
  rw [e2, addDaysCivil_zero]
  have e3 : (((hh * 3600 + mi * 60 + s : Nat) : Int) % 86400).toNat
      = hh * 3600 + mi * 60 + s := by omega
  rw [e3]
  have e4 : (hh * 3600 + mi * 60 + s) / 3600 = hh := by omega
  have e5 : (hh * 3600 + mi * 60 + s) % 3600 / 60 = mi := by omega
  have e6 : (hh * 3600 + mi * 60 + s) % 60 = s := by omega
  rw [e4, e5, e6]
  show mkDateTime y mo dd hh mi s (some 0) = some ⟨y, mo, dd, hh, mi, s, some 0⟩
  unfold mkDateTime
  rw [if_pos ⟨v1, v2, v3, v4, v5, v6, v7, v8, v9⟩]

theorem toUtc_utc_id {d : DateTime} (hv : validDT d) (hz : d.tz = some 0) :
    toUtc d = some d := by
  unfold toUtc
  rw [hz]
  simp only []
  rw [astimezoneUtc_zero hv]
  congr 1
  obtain ⟨y, mo, dd, hh, mi, s, tz⟩ := d
  simp only at hz
  simp [hz]

theorem daysInMonth_le (y m : Nat) : daysInMonth y m ≤ 31 := by
  unfold daysInMonth
  split_ifs <;> omega

theorem parseDatePart_pad {y mo dd : Nat} (rest : List Char)
    (hy : y ≤ 9999) (hmo : mo ≤ 99) (hdd : dd ≤ 99) :
    parseDatePart (pad4 y ++ '-' :: pad2 mo ++ '-' :: pad2 dd ++ rest)
      = some (y, mo, dd, rest) := by
  simp only [pad4, pad2, List.cons_append, List.nil_append]
  simp only [parseDatePart]
  rw [parseFour_pad4 hy, parseTwo_pad2 hmo, parseTwo_pad2 hdd]

theorem parseTimePart_pad {hh mi s : Nat} (rest : List Char)
    (h1 : hh ≤ 99) (h2 : mi ≤ 99) (h3 : s ≤ 99) :
    parseTimePart (pad2 hh ++ ':' :: pad2 mi ++ ':' :: pad2 s ++ rest)
      = some (hh, mi, s, rest) := by
  simp only [pad2, List.cons_append, List.nil_append]
  simp only [parseTimePart]
  rw [parseTwo_pad2 h1, parseTwo_pad2 h2, parseTwo_pad2 h3]

theorem modelParse_iso {d : DateTime} (hv : validDT d) (hz : d.tz = some 0) :
    modelDateutilParse (pyIso d) = some d := by
  obtain ⟨y, mo, dd, hh, mi, s, tz⟩ := d
  obtain ⟨v1, v2, v3, v4, v5, v6, v7, v8, v9⟩ := hv
  simp only at v2 v4 v6 v7 v8 v9 hz
  subst hz
  have hdata : (pyIso ⟨y, mo, dd, hh, mi, s, some 0⟩).data
      = pad4 y ++ '-' :: pad2 mo ++ '-' :: pad2 dd ++
        ('T' :: (pad2 hh ++ ':' :: pad2 mi ++ ':' :: pad2 s ++
          ['+', '0', '0', ':', '0', '0'])) := rfl
  unfold modelDateutilParse
  have h31 : daysInMonth y mo ≤ 31 := daysInMonth_le y mo
  rw [hdata, parseDatePart_pad _ (by omega) (by omega) (by omega)]
  simp only []
  rw [parseTimePart_pad _ (by omega) (by omega) (by omega)]
  simp only []
  rw [show parseOffsetPart ['+', '0', '0', ':', '0', '0'] = some (some 0) from rfl]
  simp only []
  show mkDateTime y mo dd hh mi s (some 0) = some ⟨y, mo, dd, hh, mi, s, some 0⟩
  unfold mkDateTime
  rw [if_pos ⟨v1, v2, v3, v4, v5, v6, v7, v8, v9⟩]

theorem parseDateStr_some {s : String} {d : DateTime} :
    parseDateStr s = some d → validDT d ∧ d.tz = some 0 := by
  unfold parseDateStr
  intro h
  split at h
  · cases h
  · rename_i dt hm
    exact toUtc_valid (modelParse_valid hm) h

/- ── Helper lemmas: the URL date scanner ── -/

theorem tryDateAt_nil : tryDateAt [] = none := rfl

theorem searchDate_iff :
    ∀ (cs : List Char) (g : Nat × Nat × Nat),
      searchDate cs = some g ↔
        ∃ n, tryDateAt (cs.drop n) = some g ∧
          ∀ m, m < n → tryDateAt (cs.drop m) = none := by
  intro cs
  induction cs with
  | nil =>
    intro g
    constructor
    · intro h; exact absurd h (by simp [searchDate])
    · rintro ⟨n, hn, -⟩
      rw [List.drop_nil] at hn
      rw [tryDateAt_nil] at hn
      cases hn
  | cons c rest ih =>
    intro g
    cases h0 : tryDateAt (c :: rest) with
    | some g0 =>
      simp only [searchDate, h0]
      constructor
      · intro h
        cases h
        exact ⟨0, by simpa using h0, fun m hm => absurd hm (Nat.not_lt_zero m)⟩
      · rintro ⟨n, hn, hmin⟩
        cases n with
        | zero =>
          rw [List.drop_zero, h0] at hn
          exact hn
        | succ k =>
          have hc := hmin 0 (Nat.succ_pos k)
          rw [List.drop_zero, h0] at hc
          cases hc
    | none =>
      simp only [searchDate, h0]
      rw [ih g]
      constructor
      · rintro ⟨n, hn, hmin⟩
        refine ⟨n + 1, by simpa using hn, ?_⟩
        intro m hm
        cases m with
        | zero => simpa using h0
        | succ j =>
          have hj := hmin j (by omega)
          simpa using hj
      · rintro ⟨n, hn, hmin⟩
        cases n with
        | zero =>
          rw [List.drop_zero, h0] at hn
          cases hn
        | succ k =>
          refine ⟨k, by simpa using hn, ?_⟩
          intro m hm
          have hmk := hmin (m + 1) (by omega)
          simpa using hmk

theorem searchDate_none :
    ∀ (cs : List Char), searchDate cs = none →
      ∀ n, tryDateAt (cs.drop n) = none := by
  intro cs
  induction cs with
  | nil => intro _ n; rw [List.drop_nil]; rfl
  | cons c rest ih =>
    intro h n
    cases h0 : tryDateAt (c :: rest) with
    | some g0 => simp [searchDate, h0] at h
    | none =>
      simp only [searchDate, h0] at h
      cases n with
      | zero => simpa using h0
      | succ k => simpa using ih h k

/- ── Helper lemmas: web strategy record inversion ── -/

theorem webKeep_url {cutoff : DateTime} {src : SourceDesc} {link : String}
    {r : ScrapeResult} {a : Article} :
    webKeep cutoff src link r = some a → a.url = link := by
  unfold webKeep
  intro h
  split at h
  · cases h; rfl
  · split at h
    · cases h
    · cases h; rfl

theorem webAccept_url {scrape : String → Option ScrapeResult} {cutoff : DateTime}
    {src : SourceDesc} {link : String} {a : Article} :
    webAccept scrape cutoff src link = some a → a.url = link := by
  unfold webAccept
  intro h
  split at h
  · cases h
  · exact webKeep_url h

/- ══ Claim theorems ══ -/

/-- C4: for a feed or sitemap source, the output equals the in-order list
    of entries accepted by the date filter, truncated to the per-source
    cap; acceptance of an entry is equivalent to its date resolving to an
    instant at or after the cutoff (for sitemap entries carrying a truthy
    loc); and when at least cap entries qualify, precisely cap records are
    returned. -/
theorem feed_sitemap_cutoff_cap (src : SourceDesc) (cutoff : DateTime)
    (mp maxChars : Nat) (entries : List FeedEntry)
    (smrs : List (Option (List UrlEntry))) :
    fetchRss src (some entries) cutoff mp maxChars
        = (entries.filterMap (rssAccept cutoff src maxChars)).take mp
    ∧ fetchSitemap src smrs cutoff mp
        = ((smrs.map (fun r => (r.getD []).filterMap (smAccept cutoff src))).flatten).take mp
    ∧ (∀ e : FeedEntry, (∃ a, rssAccept cutoff src maxChars e = some a) ↔
         ∃ d2, feedparserEntryDate e = some d2 ∧ ¬ dtLt d2 cutoff)
    ∧ (∀ (e : UrlEntry) (loc0 : String), e.loc = some loc0 → loc0 ≠ "" →
         ((∃ a, smAccept cutoff src e = some a) ↔
           ∃ d2, smEntryDate e = some d2 ∧ ¬ dtLt d2 cutoff))
    ∧ (mp ≤ (entries.filterMap (rssAccept cutoff src maxChars)).length →
         (fetchRss src (some entries) cutoff mp maxChars).length = mp)
    ∧ (mp ≤ ((smrs.map (fun r => (r.getD []).filterMap (smAccept cutoff src))).flatten).length →
         (fetchSitemap src smrs cutoff mp).length = mp) := by
  have hr : fetchRss src (some entries) cutoff mp maxChars
      = (entries.filterMap (rssAccept cutoff src maxChars)).take mp := by
    show fetchRssGo cutoff src maxChars mp entries []
        = (entries.filterMap (rssAccept cutoff src maxChars)).take mp
    rw [fetchRssGo_eq]
    simp
  have hs : fetchSitemap src smrs cutoff mp
      = ((smrs.map (fun r => (r.getD []).filterMap (smAccept cutoff src))).flatten).take mp := by
    show fetchSitemapGo cutoff src mp smrs []
        = ((smrs.map (fun r => (r.getD []).filterMap (smAccept cutoff src))).flatten).take mp
    rw [fetchSitemapGo_eq]
    simp
  refine ⟨hr, hs, ?_, ?_, ?_, ?_⟩
  · intro e
    constructor
    · rintro ⟨a, ha⟩
      unfold rssAccept at ha
      split at ha
      · cases ha
      · rename_i d2 hd2
        split at ha
        · cases ha
        · rename_i hlt
          exact ⟨d2, hd2, hlt⟩
    · rintro ⟨d2, hd2, hlt⟩
      simp only [rssAccept, hd2, if_neg hlt]
      exact ⟨_, rfl⟩
  · intro e loc0 hloc hne
    constructor
    · rintro ⟨a, ha⟩
      simp only [smAccept, hloc, if_neg hne] at ha
      split at ha
      · cases ha
      · rename_i d2 hd2
        split at ha
        · cases ha
        · rename_i hlt
          exact ⟨d2, hd2, hlt⟩
    · rintro ⟨d2, hd2, hlt⟩
      simp only [smAccept, hloc, if_neg hne, hd2, if_neg hlt]
      exact ⟨_, rfl⟩
  · intro hlen
    rw [hr, List.length_take]
    omega
  · intro hlen
    rw [hs, List.length_take]
    omega

/-- C4 witness: a concrete feed with two qualifying entries and cap one
    yields exactly one record, and a concrete qualifying sitemap entry is
    accepted exactly by the cutoff test. -/
theorem feed_sitemap_cutoff_cap_witness :
    (fetchRss ⟨some "S", some "https://e.com/feed", some "rss", none, none, none⟩
        (some [⟨none, none, none, some "2025-06-01T00:00:00+00:00", none, none,
                some "A", some "https://e.com/a", none, []⟩,
               ⟨none, none, none, some "2025-06-02T00:00:00+00:00", none, none,
                some "B", some "https://e.com/b", none, []⟩])
        ⟨2025, 1, 1, 0, 0, 0, some 0⟩ 1 500).length = 1 := by
  have h := feed_sitemap_cutoff_cap
    ⟨some "S", some "https://e.com/feed", some "rss", none, none, none⟩
    ⟨2025, 1, 1, 0, 0, 0, some 0⟩ 1 500
    [⟨none, none, none, some "2025-06-01T00:00:00+00:00", none, none,
      some "A", some "https://e.com/a", none, []⟩,
     ⟨none, none, none, some "2025-06-02T00:00:00+00:00", none, none,
      some "B", some "https://e.com/b", none, []⟩]
    []
  exact h.2.2.2.2.1 (by decide)

/-- C5: crawl_all returns exactly the concatenation of per-source results
    in descriptor order with no cross-source deduplication or re-sorting;
    its log is the per-source warnings/errors in order (so an exception in
    one source leaves every other source's contribution intact); and a
    descriptor lacking a name or URL is skipped silently, contributing
    neither articles nor log lines. -/
theorem aggregator_isolation_order
    (outcome : SourceDesc → Strat → Except Unit (List Article))
    (sources : List SourceDesc) :
    (crawlAll outcome sources).1 = (sources.map (perSourceAs outcome)).flatten
    ∧ (crawlAll outcome sources).2 = sources.filterMap (perSourceLog outcome)
    ∧ (∀ (s : SourceDesc) (rest : List SourceDesc), s.name = none ∨ s.url = none →
        crawlAll outcome (s :: rest) = crawlAll outcome rest) := by
  refine ⟨?_, ?_, ?_⟩
  · show (crawlAllGo outcome sources [] []).1 = (sources.map (perSourceAs outcome)).flatten
    rw [crawlAllGo_eq]
    simp
  · show (crawlAllGo outcome sources [] []).2 = sources.filterMap (perSourceLog outcome)
    rw [crawlAllGo_eq]
    simp
  · intro s rest hmiss
    have hcond : s.url = none ∨ s.name = none := hmiss.symm
    show crawlAllGo outcome (s :: rest) [] [] = crawlAllGo outcome rest [] []
    simp only [crawlAllGo]
    rw [if_pos hcond]

/-- C5 witness: a descriptor with a URL but no name is skipped, leaving the
    run of the remaining (empty) list unchanged. -/
theorem aggregator_isolation_order_witness :
    crawlAll (fun _ _ => Except.ok [])
        [⟨none, some "https://e.com", some "rss", none, none, none⟩]
      = crawlAll (fun _ _ => Except.ok []) [] :=
  (aggregator_isolation_order (fun _ _ => Except.ok [])
    []).2.2 ⟨none, some "https://e.com", some "rss", none, none, none⟩ []
    (Or.inl rfl)

/-- C10: a descriptor with name and URL but no declared type is not treated
    as unrecognized: it is dispatched to the feed (rss) strategy and no
    unknown-type warning is logged. -/
theorem missing_type_defaults_rss
    (outcome : SourceDesc → Strat → Except Unit (List Article))
    (s : SourceDesc) (n u : String)
    (hn : s.name = some n) (hu : s.url = some u) (ht : s.srcType = none) :
    (crawlAll outcome [s]).1 = exceptArticles (outcome s Strat.rss)
    ∧ logsHaveUnknownType (crawlAll outcome [s]).2 = false := by
  have hcond : ¬ (s.url = none ∨ s.name = none) := by
    simp [hn, hu]
  have ht2 : s.srcType.getD "rss" = "rss" := by rw [ht]; rfl
  show (crawlAllGo outcome [s] [] []).1 = exceptArticles (outcome s Strat.rss)
    ∧ logsHaveUnknownType (crawlAllGo outcome [s] [] []).2 = false
  simp only [crawlAllGo, if_neg hcond, ht2]
  rw [show dispatchGet "rss" = some Strat.rss from rfl]
  cases ho : outcome s Strat.rss with
  | ok as => simp [crawlAllGo, exceptArticles, logsHaveUnknownType, ho]
  | error err => simp [crawlAllGo, exceptArticles, logsHaveUnknownType, ho]

/-- C10 witness: a concrete named descriptor without a type runs the rss
    strategy and logs no unknown-type warning. -/
theorem missing_type_defaults_rss_witness :
    (crawlAll (fun _ _ => Except.ok [])
        [⟨some "S", some "https://e.com", none, none, none, none⟩]).1
      = exceptArticles (Except.ok [])
    ∧ logsHaveUnknownType
        (crawlAll (fun _ _ => Except.ok [])
          [⟨some "S", some "https://e.com", none, none, none, none⟩]).2 = false :=
  missing_type_defaults_rss (fun _ _ => Except.ok [])
    ⟨some "S", some "https://e.com", none, none, none, none⟩ "S" "https://e.com"
    rfl rfl rfl

/-- C6: the date resolver is total (failure is the none value, never an
    escaping exception in the embedding), every successful result is a
    timezone-aware UTC instant that satisfies the datetime invariant, an
    unparseable input yields none, and a naive parsed value is stamped as
    UTC unchanged.  Purity and determinism are inherent: parseDateStr is a
    function of its input alone. -/
theorem date_resolver_total_utc (s : String) :
    (∀ d, parseDateStr s = some d → d.tz = some 0 ∧ validDT d)
    ∧ (modelDateutilParse s = none → parseDateStr s = none)
    ∧ (∀ dt : DateTime, dt.tz = none → toUtc dt = some { dt with tz := some 0 }) := by
  refine ⟨?_, ?_, ?_⟩
  · intro d h
    have hp := parseDateStr_some h
    exact ⟨hp.2, hp.1⟩
  · intro h
    unfold parseDateStr
    rw [h]
  · intro dt h
    unfold toUtc
    rw [h]

/-- C6 witness: a concrete ISO input resolves to a UTC-aware valid instant,
    and a concrete naive value is stamped UTC by _to_utc. -/
theorem date_resolver_total_utc_witness :
    ((⟨2025, 6, 1, 8, 30, 0, some 0⟩ : DateTime).tz = some 0
        ∧ validDT ⟨2025, 6, 1, 8, 30, 0, some 0⟩)
    ∧ toUtc ⟨2025, 6, 1, 8, 30, 0, none⟩ = some ⟨2025, 6, 1, 8, 30, 0, some 0⟩ :=
  ⟨(date_resolver_total_utc "2025-06-01T08:30:00+00:00").1
      ⟨2025, 6, 1, 8, 30, 0, some 0⟩ (by decide),
   (date_resolver_total_utc "x").2.2 ⟨2025, 6, 1, 8, 30, 0, none⟩ rfl⟩

/-- C9: parsing the isoformat rendering of any instant the date resolver
    produced yields the same instant back (round-trip stability). -/
theorem date_resolver_roundtrip (s : String) (d : DateTime)
    (h : parseDateStr s = some d) : parseDateStr (pyIso d) = some d := by
  obtain ⟨hv, hz⟩ := parseDateStr_some h
  unfold parseDateStr
  rw [modelParse_iso hv hz]
  exact toUtc_utc_id hv hz

/-- C9 witness: the round trip at a concrete parsed instant. -/
theorem date_resolver_roundtrip_witness :
    parseDateStr (pyIso ⟨2025, 2, 21, 12, 0, 0, some 0⟩)
      = some ⟨2025, 2, 21, 12, 0, 0, some 0⟩ :=
  date_resolver_roundtrip "2025-02-21T12:00:00Z" ⟨2025, 2, 21, 12, 0, 0, some 0⟩
    (by decide)

/-- C2: the four signal layers of _extract_date_from_html are consulted in
    strict priority order: a malformed structured-data block is skipped
    without aborting the search; the first structured-data date wins over
    everything (in particular over a conflicting meta date); the meta layer
    is consulted only when structured data yields nothing, the time layer
    only after that, the URL-path date last; and the result is none exactly
    when all four layers fail. -/
theorem extract_date_priority (ld : List LdJson) (metas : List MetaTag)
    (times : List TimeTag) (url : String) :
    (extractDateFromHtml (HtmlDoc.doc (LdJson.malformed :: ld) metas times) url
        = extractDateFromHtml (HtmlDoc.doc ld metas times) url)
    ∧ (∀ d, ldFirstDate ld = some d →
        extractDateFromHtml (HtmlDoc.doc ld metas times) url = some d)
    ∧ (ldFirstDate ld = none → ∀ d, metaFirstDate metas = some d →
        extractDateFromHtml (HtmlDoc.doc ld metas times) url = some d)
    ∧ (ldFirstDate ld = none → metaFirstDate metas = none →
        ∀ d, timeFirstDate times = some d →
          extractDateFromHtml (HtmlDoc.doc ld metas times) url = some d)
    ∧ (ldFirstDate ld = none → metaFirstDate metas = none →
        timeFirstDate times = none →
          extractDateFromHtml (HtmlDoc.doc ld metas times) url = dateFromUrl url)
    ∧ (extractDateFromHtml (HtmlDoc.doc ld metas times) url = none ↔
        (ldFirstDate ld = none ∧ metaFirstDate metas = none
          ∧ timeFirstDate times = none ∧ dateFromUrl url = none)) := by
  refine ⟨?_, ?_, ?_, ?_, ?_, ?_⟩
  · have hml : ldFirstDate (LdJson.malformed :: ld) = ldFirstDate ld := by
      simp [ldFirstDate, ldBlockDate]
    simp only [extractDateFromHtml, hml]
  · intro d h
    simp only [extractDateFromHtml, h]
  · intro h1 d h2
    simp only [extractDateFromHtml, h1, h2]
  · intro h1 h2 d h3
    simp only [extractDateFromHtml, h1, h2, h3]
  · intro h1 h2 h3
    simp only [extractDateFromHtml, h1, h2, h3]
  · cases h1 : ldFirstDate ld with
    | some d => simp [extractDateFromHtml, h1]
    | none =>
      cases h2 : metaFirstDate metas with
      | some d => simp [extractDateFromHtml, h1, h2]
      | none =>
        cases h3 : timeFirstDate times with
        | some d => simp [extractDateFromHtml, h1, h2, h3]
        | none => simp [extractDateFromHtml, h1, h2, h3]

/-- C2 witness: a page whose structured data carries a valid datePublished
    and whose meta tags carry a conflicting date resolves to the
    structured-data value, and prepending a malformed block changes
    nothing. -/
theorem extract_date_priority_witness :
    extractDateFromHtml
        (HtmlDoc.doc [LdJson.obj [("datePublished", "2025-06-01T00:00:00+00:00")]]
          [⟨none, some "date", some "2020-01-01"⟩] [])
        "https://e.com/a"
      = some ⟨2025, 6, 1, 0, 0, 0, some 0⟩
    ∧ extractDateFromHtml
        (HtmlDoc.doc
          (LdJson.malformed :: [LdJson.obj [("datePublished", "2025-06-01T00:00:00+00:00")]])
          [⟨none, some "date", some "2020-01-01"⟩] [])
        "https://e.com/a"
      = extractDateFromHtml
        (HtmlDoc.doc [LdJson.obj [("datePublished", "2025-06-01T00:00:00+00:00")]]
          [⟨none, some "date", some "2020-01-01"⟩] [])
        "https://e.com/a" :=
  ⟨(extract_date_priority [LdJson.obj [("datePublished", "2025-06-01T00:00:00+00:00")]]
      [⟨none, some "date", some "2020-01-01"⟩] [] "https://e.com/a").2.1
      ⟨2025, 6, 1, 0, 0, 0, some 0⟩ (by decide),
   (extract_date_priority [LdJson.obj [("datePublished", "2025-06-01T00:00:00+00:00")]]
      [⟨none, some "date", some "2020-01-01"⟩] [] "https://e.com/a").1⟩

/-- C3: a candidate the web strategy scraped successfully (within both
    ceilings, with the per-source cap not binding) is never dropped merely
    for lacking a date: with no resolvable date it is kept and its
    published-at field is the unknown sentinel, and with a resolved date it
    is kept exactly when that date does not precede the cutoff. -/
theorem web_keeps_unknown_drops_stale
    (src : SourceDesc) (soup : Soup) (scrape : String → Option ScrapeResult)
    (cutoff : DateTime) (mp mc : Nat) (u link : String) (r : ScrapeResult)
    (hu : src.url = some u) (hmc : src.maxArticles = some mc)
    (hs : scrape link = some r)
    (hmem : link ∈ (extractArticleLinks soup u src.articleSelector).take mc)
    (hlen : (fetchWeb src (some soup) scrape cutoff mp).length < mp) :
    (r.pub_dt = none →
      ∃ a ∈ fetchWeb src (some soup) scrape cutoff mp,
        a.url = link ∧ a.published_at = "unknown")
    ∧ (∀ d, r.pub_dt = some d →
        ((∃ a ∈ fetchWeb src (some soup) scrape cutoff mp, a.url = link)
          ↔ ¬ dtLt d cutoff)) := by
  have hfw : fetchWeb src (some soup) scrape cutoff mp
      = (((extractArticleLinks soup u src.articleSelector).take mc).filterMap
          (webAccept scrape cutoff src)).take mp := by
    unfold fetchWeb
    rw [hmc, hu]
    simp only [Option.getD_some]
    rw [webLoop_eq]
    simp
  have hout : fetchWeb src (some soup) scrape cutoff mp
      = ((extractArticleLinks soup u src.articleSelector).take mc).filterMap
          (webAccept scrape cutoff src) := by
    rw [hfw]
    apply List.take_of_length_le
    rw [hfw, List.length_take] at hlen
    omega
  constructor
  · intro hnone
    have hacc : webAccept scrape cutoff src link = some
        { title := pyStrip (if r.title = "" then link else r.title), url := link,
          published_at := "unknown", summary := r.summary,
          source := src.name.getD "", category := src.category.getD "tech" } := by
      simp only [webAccept, hs, webKeep, hnone]
    refine ⟨{ title := pyStrip (if r.title = "" then link else r.title), url := link,
              published_at := "unknown", summary := r.summary,
              source := src.name.getD "", category := src.category.getD "tech" },
            ?_, rfl, rfl⟩
    rw [hout]
    exact List.mem_filterMap.mpr ⟨link, hmem, hacc⟩
  · intro d hd
    constructor
    · rintro ⟨a, ha, hurl⟩
      rw [hout] at ha
      obtain ⟨l2, hl2, hacc⟩ := List.mem_filterMap.mp ha
      have hul : a.url = l2 := webAccept_url hacc
      have hll : l2 = link := by rw [← hul, hurl]
      subst hll
      intro hlt
      simp only [webAccept, hs, webKeep, hd, if_pos hlt] at hacc
      exact Option.noConfusion hacc
    · intro hnlt
      have hacc : webAccept scrape cutoff src link = some
          { title := pyStrip (if r.title = "" then link else r.title), url := link,
            published_at := pyIso d, summary := r.summary,
            source := src.name.getD "", category := src.category.getD "tech" } := by
        simp only [webAccept, hs, webKeep, hd, if_neg hnlt]
      refine ⟨{ title := pyStrip (if r.title = "" then link else r.title), url := link,
                published_at := pyIso d, summary := r.summary,
                source := src.name.getD "", category := src.category.getD "tech" },
              ?_, rfl⟩
      rw [hout]
      exact List.mem_filterMap.mpr ⟨link, hmem, hacc⟩

/-- C3 witness: a concrete candidate with no resolvable date is kept and
    marked with the unknown sentinel. -/
theorem web_keeps_unknown_drops_stale_witness :
    ∃ a ∈ fetchWeb ⟨some "W", some "https://e.com/", some "web", none, none, some 9⟩
        (some ⟨[], [], [], [⟨some "/w1"⟩], fun _ => []⟩)
        (fun l => if l = "https://e.com/w1" then some ⟨"T", none, "sum"⟩ else none)
        ⟨2025, 1, 1, 0, 0, 0, some 0⟩ 5,
      a.url = "https://e.com/w1" ∧ a.published_at = "unknown" :=
  (web_keeps_unknown_drops_stale
    ⟨some "W", some "https://e.com/", some "web", none, none, some 9⟩
    ⟨[], [], [], [⟨some "/w1"⟩], fun _ => []⟩
    (fun l => if l = "https://e.com/w1" then some ⟨"T", none, "sum"⟩ else none)
    ⟨2025, 1, 1, 0, 0, 0, some 0⟩ 5 9 "https://e.com/" "https://e.com/w1"
    ⟨"T", none, "sum"⟩ rfl rfl (by decide) (by decide) (by decide)).1 rfl

/-- C7 counterexample: the claim reads "returns an instant exactly when the
    path contains a valid date segment".  Here the path contains the valid
    segment /2024/05/06/, yet the extractor returns none, because the
    leftmost pattern match is /2025-13-01/ and month 13 makes the datetime
    constructor fail. -/
theorem url_date_path_counterexample :
    pathHasValidDateSeg "https://e.com/2025-13-01/2024/05/06/x" = true
    ∧ dateFromUrl "https://e.com/2025-13-01/2024/05/06/x" = none := by
  constructor
  · decide
  · decide

/-- C7 amended: the URL-path date extractor applies the regex search to the
    whole URL string and uses only its leftmost match: it returns the
    UTC-midnight instant built from the leftmost match's digits when they
    form a valid calendar date, and none when there is no match anywhere or
    the leftmost match's digits are invalid. -/
theorem url_date_leftmost_characterization (url : String) (t : DateTime) :
    dateFromUrl url = some t ↔
      ∃ n y2 m2 d2, tryDateAt (url.data.drop n) = some (y2, m2, d2)
        ∧ (∀ m, m < n → tryDateAt (url.data.drop m) = none)
        ∧ mkDateTime y2 m2 d2 0 0 0 (some 0) = some t := by
  constructor
  · intro h
    unfold dateFromUrl at h
    cases hsd : searchDate url.data with
    | none =>
      rw [hsd] at h
      exact Option.noConfusion h
    | some g =>
      obtain ⟨y2, m2, d2⟩ := g
      rw [hsd] at h
      obtain ⟨n, hn, hmin⟩ := (searchDate_iff url.data (y2, m2, d2)).mp hsd
      exact ⟨n, y2, m2, d2, hn, hmin, h⟩
  · rintro ⟨n, y2, m2, d2, hn, hmin, hmk⟩
    have hsd : searchDate url.data = some (y2, m2, d2) :=
      (searchDate_iff url.data (y2, m2, d2)).mpr ⟨n, hn, hmin⟩
    unfold dateFromUrl
    rw [hsd]
    exact hmk

/-- C8 counterexample: the feed strategy has no title-to-URL fallback: an
    entry with no title and a qualifying date yields a record whose title
    is the empty string, not its URL. -/
theorem rss_title_no_url_fallback :
    ∃ a ∈ fetchRss ⟨some "S", some "https://e.com/feed", some "rss", none, none, none⟩
        (some [⟨none, none, none, some "2025-06-01T00:00:00+00:00", none, none,
                none, some "https://e.com/x", none, []⟩])
        ⟨2025, 1, 1, 0, 0, 0, some 0⟩ 5 500,
      a.title = "" ∧ a.url = "https://e.com/x" ∧ a.title ≠ a.url := by
  decide

theorem smAccept_title {cutoff : DateTime} {src : SourceDesc} {e : UrlEntry}
    {a : Article} :
    smAccept cutoff src e = some a →
      a.title = (if smRawTitle e = "" then a.url else smRawTitle e) := by
  unfold smAccept
  intro h
  split at h
  · exact Option.noConfusion h
  · split at h
    · exact Option.noConfusion h
    · split at h
      · exact Option.noConfusion h
      · split at h
        · exact Option.noConfusion h
        · cases h; rfl

theorem webAccept_title {scrape : String → Option ScrapeResult} {cutoff : DateTime}
    {src : SourceDesc} {l : String} {a : Article} :
    webAccept scrape cutoff src l = some a →
      ∃ r, scrape l = some r ∧ a.title = pyStrip (if r.title = "" then l else r.title) := by
  intro h
  cases hsl : scrape l with
  | none =>
    unfold webAccept at h
    rw [hsl] at h
    exact Option.noConfusion h
  | some r =>
    unfold webAccept at h
    rw [hsl] at h
    refine ⟨r, rfl, ?_⟩
    change webKeep cutoff src l r = some a at h
    unfold webKeep at h
    split at h
    · cases h; rfl
    · split at h
      · exact Option.noConfusion h
      · cases h; rfl

/-- C8 amended: every record produced by the sitemap and web strategies
    carries its URL as title when the extracted title was empty (the web
    strategy strips the result afterwards); the feed strategy has no such
    fallback (see the counterexample). -/
theorem title_fallback_sitemap_web (cutoff : DateTime) (src : SourceDesc) (mp : Nat)
    (smrs : List (Option (List UrlEntry))) (listing : Option Soup)
    (scrape : String → Option ScrapeResult) :
    (∀ a ∈ fetchSitemap src smrs cutoff mp,
        ∃ e, smAccept cutoff src e = some a ∧ (smRawTitle e = "" → a.title = a.url))
    ∧ (∀ a ∈ fetchWeb src listing scrape cutoff mp,
        ∃ r, scrape a.url = some r ∧ (r.title = "" → a.title = pyStrip a.url)) := by
  constructor
  · intro a ha
    have hsm : fetchSitemap src smrs cutoff mp
        = ((smrs.map (fun r => (r.getD []).filterMap (smAccept cutoff src))).flatten).take mp := by
      show fetchSitemapGo cutoff src mp smrs []
          = ((smrs.map (fun r => (r.getD []).filterMap (smAccept cutoff src))).flatten).take mp
      rw [fetchSitemapGo_eq]
      simp
    rw [hsm] at ha
    have ha2 := List.mem_of_mem_take ha
    obtain ⟨l2, hl2, hal⟩ := List.mem_flatten.mp ha2
    obtain ⟨r2, hr2, hmap⟩ := List.mem_map.mp hl2
    subst hmap
    obtain ⟨e, he, hacc⟩ := List.mem_filterMap.mp hal
    refine ⟨e, hacc, ?_⟩
    intro hraw
    have ht := smAccept_title hacc
    rw [if_pos hraw] at ht
    exact ht
  · intro a ha
    cases listing with
    | none => exact absurd ha (by simp [fetchWeb])
    | some soup =>
      simp only [fetchWeb] at ha
      rw [webLoop_eq] at ha
      simp only [Nat.sub_zero, List.length_nil, List.nil_append] at ha
      have ha2 := List.mem_of_mem_take ha
      obtain ⟨l2, hl2, hacc⟩ := List.mem_filterMap.mp ha2
      have hurl : a.url = l2 := webAccept_url hacc
      obtain ⟨r, hsl, ht⟩ := webAccept_title hacc
      refine ⟨r, by rw [hurl]; exact hsl, ?_⟩
      intro hrt
      rw [if_pos hrt] at ht
      rw [ht, hurl]

/-- C8 amended witness: a concrete sitemap entry with no news title yields
    a record whose title is its URL. -/
theorem title_fallback_sitemap_web_witness :
    ∃ e, smAccept ⟨2025, 1, 1, 0, 0, 0, some 0⟩
          ⟨some "S", some "https://e.com/sm.xml", some "sitemap", none, none, none⟩ e
        = some ⟨"https://e.com/s1", "https://e.com/s1",
                "2025-06-01T00:00:00+00:00", "", "S", "tech"⟩
      ∧ (smRawTitle e = "" →
          (⟨"https://e.com/s1", "https://e.com/s1",
            "2025-06-01T00:00:00+00:00", "", "S", "tech"⟩ : Article).title
          = (⟨"https://e.com/s1", "https://e.com/s1",
              "2025-06-01T00:00:00+00:00", "", "S", "tech"⟩ : Article).url) :=
  (title_fallback_sitemap_web ⟨2025, 1, 1, 0, 0, 0, some 0⟩
    ⟨some "S", some "https://e.com/sm.xml", some "sitemap", none, none, none⟩ 5
    [some [⟨some "https://e.com/s1", none, some "2025-06-01", none⟩]]
    none (fun _ => none)).1
    ⟨"https://e.com/s1", "https://e.com/s1", "2025-06-01T00:00:00+00:00", "", "S", "tech"⟩
    (by decide)

/-- C1: in _extract_article_links without a selector the heuristic cascade
    is dead code: the expression rereading the selector's truthiness
    discards the non-empty container result, so the all-anchors fallback is
    always used.  On a page whose semantic article container holds one
    anchor, the heuristic candidate set would give one link, but the
    function returns the all-anchors set including the noise anchor. -/
theorem link_heuristic_cascade_dead :
    (⟨[⟨some "/a1"⟩], [], [], [⟨some "/a1"⟩, ⟨some "/nav1"⟩], fun _ => []⟩ : Soup).articles ≠ []
    ∧ linksLoop "https://e.com/" [⟨some "/a1"⟩] [] [] = ["https://e.com/a1"]
    ∧ extractArticleLinks
        ⟨[⟨some "/a1"⟩], [], [], [⟨some "/a1"⟩, ⟨some "/nav1"⟩], fun _ => []⟩
        "https://e.com/" none
      = ["https://e.com/a1", "https://e.com/nav1"] := by
  refine ⟨by decide, by decide, by decide⟩
